import Mathlib

/-!
Verification of the observability core of the jwt-pizza-service repository:
the log sanitizer, the HTTP log interceptor, the status-to-level mapping,
the telemetry transport guards, the in-memory metrics aggregator with its
periodic flush, and the flush scheduler.  Each definition below is a shallow
embedding of the corresponding JavaScript function in `src/logger.js` /
`src/metrics.js`; JS numbers are modelled as rationals, JS `undefined`
as `Option.none`, and the mutable module-level metric variables as an
explicit state record threaded through the event hooks.
-/

namespace JwtPizzaObs

/-- `strContainsSub s pat` models JavaScript `s.includes(pat)`:
`pat` occurs as a contiguous substring of `s`. -/
def strContainsSub (s pat : String) : Bool :=
  s.toList.tails.any (fun t => pat.toList.isPrefixOf t)

/-- ASCII lowercasing of one character (the keys and parameters this system
lowercases are ASCII, where JS `toLowerCase` acts exactly like this). -/
def charLower (c : Char) : Char :=
  if 'A' ≤ c ∧ c ≤ 'Z' then Char.ofNat (c.toNat + 32) else c

/-- JS `s.toLowerCase()` on ASCII strings. -/
def strToLower (s : String) : String :=
  String.mk (s.toList.map charLower)

/-- JSON-compatible values (the payloads handled by `Logger.sanitize`):
primitives, arrays, and objects as insertion-ordered key/value lists
(JS object keys are unique and `Object.keys` preserves insertion order). -/
inductive Json where
  | null : Json
  | bool (b : Bool) : Json
  | num (q : ℚ) : Json
  | str (s : String) : Json
  | arr (xs : List Json) : Json
  | obj (kvs : List (String × Json)) : Json
deriving Repr

/-- The sensitive-key test of `Logger.sanitize` (logger.js line 121):
the lowercased key contains "password", "apikey", "token" or
"authorization" as a substring. -/
def sensitiveKey (k : String) : Bool :=
  let lower := strToLower k
  strContainsSub lower "password" || strContainsSub lower "apikey" ||
    strContainsSub lower "token" || strContainsSub lower "authorization"

mutual
/-- `Logger.sanitize` (logger.js lines 114-132).  The JS code deep-clones
the input via `JSON.parse(JSON.stringify(obj))` and then mutates the clone
in place (`clean`): for each key of an object, a sensitive key has its value
replaced by the marker "*****", any other value is cleaned recursively.
Arrays are objects in JS whose keys are numeric indices (never sensitive),
so `clean` recurses into every element; primitives are left alone.  Since
only the clone is mutated, the whole operation is this pure function and
the input value is never modified. -/
def sanitize : Json → Json
  | Json.arr xs => Json.arr (sanitizeArr xs)
  | Json.obj kvs => Json.obj (sanitizeObj kvs)
  | v => v

/-- Elementwise recursion of `sanitize` into a JS array. -/
def sanitizeArr : List Json → List Json
  | [] => []
  | x :: xs => sanitize x :: sanitizeArr xs

/-- Key-by-key recursion of `sanitize` into a JS object. -/
def sanitizeObj : List (String × Json) → List (String × Json)
  | [] => []
  | (k, v) :: rest =>
      (if sensitiveKey k then (k, Json.str "*****") else (k, sanitize v)) :: sanitizeObj rest
end

mutual
/-- `noSensVal v` holds when no object key anywhere inside `v` is sensitive. -/
def noSensVal : Json → Bool
  | Json.arr xs => noSensArr xs
  | Json.obj kvs => noSensObj kvs
  | _ => true

/-- `noSensVal` over array elements. -/
def noSensArr : List Json → Bool
  | [] => true
  | x :: xs => noSensVal x && noSensArr xs

/-- `noSensVal` over object entries. -/
def noSensObj : List (String × Json) → Bool
  | [] => true
  | (k, v) :: rest => !sensitiveKey k && noSensVal v && noSensObj rest
end

/-- One element of `Logger.sanitizeParams` (logger.js lines 140-145): a string
parameter whose lowercased form contains "password" or whose length exceeds
50 is replaced by the marker; anything else is returned unchanged. -/
def sanitizeParamElem (p : Json) : Json :=
  match p with
  | Json.str s =>
      if strContainsSub (strToLower s) "password" || s.length > 50 then Json.str "*****"
      else Json.str s
  | x => x

/-- `Logger.sanitizeParams` (logger.js lines 136-146) on an array input
(non-array inputs are returned unchanged by an early guard). -/
def sanitizeParams (params : List Json) : List Json :=
  params.map sanitizeParamElem

/-- One navigation step into a JSON value: an object field or array index. -/
inductive PathStep where
  | field (k : String)
  | index (i : Nat)
deriving Repr, DecidableEq

/-- First-match association lookup, the semantics of JS property access on
an object with (unique) insertion-ordered keys. -/
def lookupKey : List (String × Json) → String → Option Json
  | [], _ => none
  | (k, v) :: rest, key => if k = key then some v else lookupKey rest key

/-- Descend one `PathStep` into a value. -/
def stepGet : Json → PathStep → Option Json
  | Json.obj kvs, PathStep.field k => lookupKey kvs k
  | Json.arr xs, PathStep.index i => xs.get? i
  | _, _ => none

/-- Descend a whole path of steps into a value. -/
def getPath : Json → List PathStep → Option Json
  | v, [] => some v
  | v, s :: p =>
      match stepGet v s with
      | some w => getPath w p
      | none => none

/-- A path step addressing a sensitive object key. -/
def stepSensitive : PathStep → Bool
  | PathStep.field k => sensitiveKey k
  | PathStep.index _ => false

/-- `Logger.statusToLogLevel` (logger.js lines 101-105). -/
def statusToLogLevel (statusCode : ℤ) : String :=
  if statusCode ≥ 500 then "error"
  else if statusCode ≥ 400 then "warn"
  else "info"

/-- The level derivation of the HTTP interceptor's `logResponse`
(logger.js line 27): `this.statusToLogLevel(res.statusCode)`. -/
def httpLogLevel (statusCode : ℤ) : String :=
  statusToLogLevel statusCode

/-- The level derivation of `Logger.factoryLog` (logger.js line 80):
`statusCode >= 400 || error ? 'warn' : 'info'`. -/
def factoryLogLevel (statusCode : ℤ) (errorPresent : Bool) : String :=
  if statusCode ≥ 400 ∨ errorPresent = true then "warn" else "info"

/-!
### HTTP log interceptor (`Logger.httpLogger`, logger.js lines 5-48)

`httpLogger` wraps `res.send` and `res.json`.  Each wrapper, when invoked,
logs the response and then restores only ITS OWN slot to the original
function before delegating to it.  The framework's structured JSON send
(`res.json`) builds the body and then invokes the response object's current
`send` slot (`this.send`), which is the edge case named by the spec where
one finalization path internally calls the other.  The model tracks which
slots still hold a wrapper and how many http log events were produced.
-/

/-- Per-response interceptor state: whether the `send` / `json` slots still
hold the logging wrapper, and how many http log events were emitted. -/
structure ResState where
  sendWrapped : Bool
  jsonWrapped : Bool
  logCount : Nat
deriving Repr, DecidableEq

/-- State right after `httpLogger` installs both wrappers on a fresh
response (no log emitted yet). -/
def installLogger : ResState :=
  { sendWrapped := true, jsonWrapped := true, logCount := 0 }

/-- Invoking `res.send`: the wrapper (if installed) logs once, restores
`res.send` to the original, and delegates; the original send finishes the
response without calling back into `res.json`. -/
def callSend (r : ResState) : ResState :=
  if r.sendWrapped then
    { r with sendWrapped := false, logCount := r.logCount + 1 }
  else r

/-- Invoking `res.json`: the wrapper (if installed) logs once, restores
`res.json`, and delegates to the original `res.json`, which serializes the
body and invokes the response's current `send` slot. -/
def callJson (r : ResState) : ResState :=
  let r1 :=
    if r.jsonWrapped then
      { r with jsonWrapped := false, logCount := r.logCount + 1 }
    else r
  callSend r1

/-- A response-finalizing call issued against the response object. -/
inductive FinCall where
  | send : FinCall
  | json : FinCall
deriving Repr, DecidableEq

/-- Dispatch one finalizing call. -/
def applyCall (r : ResState) : FinCall → ResState
  | FinCall.send => callSend r
  | FinCall.json => callJson r

/-- Run a sequence of finalizing calls against a response state. -/
def runCalls (r : ResState) (cs : List FinCall) : ResState :=
  cs.foldl applyCall r

/-!
### Telemetry transport (`sendLogToGrafana`, `sendMetricToGrafana`)
-/

/-- The `config.logging` object: every field may be absent (`undefined`). -/
structure LoggingConfig where
  url : Option String
  apiKey : Option String
  userId : Option String
  source : Option String
deriving Repr, DecidableEq

/-- The `config.metrics` object. -/
structure MetricsConfig where
  url : Option String
  apiKey : Option String
  source : Option String
deriving Repr, DecidableEq

/-- JS falsiness of a possibly-absent string (`!x`): absent or empty. -/
def falsyOptStr : Option String → Bool
  | none => true
  | some s => s.isEmpty

/-- Template-literal rendering of a possibly-absent string:
`undefined` interpolates as the text "undefined". -/
def jsShow : Option String → String
  | none => "undefined"
  | some s => s

/-- The Authorization header attached to an outbound push (the Base64
payload of the Basic form is kept abstract: only its input matters here). -/
inductive AuthHeader where
  | bearerUser (userId apiKey : String) : AuthHeader
  | basic (apiKey : String) : AuthHeader
  | bearer (apiKey : String) : AuthHeader
deriving Repr, DecidableEq

/-- Observable outcome of one transport call.  `configSkip` is the local
no-op diagnostic path; `attempted` means an HTTP POST was issued (fire and
forget, failures swallowed on the async completion path); `skippedEmpty` is
the metrics early return on an empty batch. -/
inductive SendOutcome where
  | configSkip : SendOutcome
  | attempted (url : String) (auth : AuthHeader) : SendOutcome
  | skippedEmpty : SendOutcome
deriving Repr, DecidableEq

/-- `Logger.sendLogToGrafana` (logger.js lines 149-179): if `config.logging`
is absent, or its `url` or `apiKey` is falsy, print a configuration
diagnostic and return without attempting delivery; otherwise POST with
`Authorization: Bearer <userId>:<apiKey>`. -/
def sendLogToGrafana : Option LoggingConfig → SendOutcome
  | none => SendOutcome.configSkip
  | some cfg =>
      if falsyOptStr cfg.url || falsyOptStr cfg.apiKey then SendOutcome.configSkip
      else
        SendOutcome.attempted (jsShow cfg.url)
          (AuthHeader.bearerUser (jsShow cfg.userId) (jsShow cfg.apiKey))

/-!
### Metrics aggregator state and event hooks (metrics.js)
-/

/-- The module-level mutable metric variables of metrics.js, gathered into
one record.  `requests` is the JS object `{ method: count }` as an
insertion-ordered association list; `endpointLatencies` keeps the
`{ endpoint, latency }` pairs; latencies and revenue are JS numbers
(rationals here). -/
structure AggState where
  requests : List (String × Nat)
  endpointLatencies : List (String × ℚ)
  activeUsers : List String
  authSuccessCount : Nat
  authFailureCount : Nat
  pizzaSoldCount : Nat
  pizzaCreationFailures : Nat
  pizzaRevenue : ℚ
  pizzaCreationLatencies : List ℚ
deriving Repr, DecidableEq

/-- The initial module state of metrics.js. -/
def initState : AggState :=
  { requests := [], endpointLatencies := [], activeUsers := []
    authSuccessCount := 0, authFailureCount := 0
    pizzaSoldCount := 0, pizzaCreationFailures := 0
    pizzaRevenue := 0, pizzaCreationLatencies := [] }

/-- `requests[method] = (requests[method] || 0) + 1`: bump the first entry
for `method`, or append a fresh entry with count 1 (JS objects keep an
existing key's position and append new keys). -/
def bumpRequest : List (String × Nat) → String → List (String × Nat)
  | [], m => [(m, 1)]
  | (k, c) :: rest, m =>
      if k = m then (k, c + 1) :: rest else (k, c) :: bumpRequest rest m

/-- `requests[m] || 0`: the count recorded for a method (0 when absent). -/
def lookupCount : List (String × Nat) → String → Nat
  | [], _ => 0
  | (k, c) :: rest, m => if k = m then c else lookupCount rest m

/-- `xs.push(x); if (xs.length > 1000) xs.shift();` — append, then drop the
oldest element once the length exceeds 1000. -/
def pushCapped1000 {α : Type} (xs : List α) (x : α) : List α :=
  let ys := xs ++ [x]
  if ys.length > 1000 then ys.tail else ys

/-- `Set.add`: insert a user id if not already present (metrics.js
`trackActiveUser`). -/
def insertUser (xs : List String) (id : String) : List String :=
  if xs.contains id then xs else xs ++ [id]

/-- `trackPizzaPurchase(success, latency, price)` (metrics.js): on success
bump `pizzaSoldCount` and add `price || 0` to `pizzaRevenue`, otherwise bump
`pizzaCreationFailures`; independently, when a latency was supplied, append
it to the capped `pizzaCreationLatencies` list. -/
def trackPizzaPurchase (st : AggState) (success : Bool) (latency price : Option ℚ) :
    AggState :=
  let st1 :=
    if success then
      { st with pizzaSoldCount := st.pizzaSoldCount + 1
                pizzaRevenue := st.pizzaRevenue + price.getD 0 }
    else
      { st with pizzaCreationFailures := st.pizzaCreationFailures + 1 }
  match latency with
  | some l => { st1 with pizzaCreationLatencies := pushCapped1000 st1.pizzaCreationLatencies l }
  | none => st1

/-- Post-send trim inside one `sendMetricsPeriodically` tick (logger.js
lines 422-423): a list longer than 100 is cut to its last 50 elements
(`slice(-50)`); counters are untouched — "NO COUNTERS ARE EVER RESET". -/
def trimLatencies {α : Type} (xs : List α) : List α :=
  if xs.length > 100 then xs.drop (xs.length - 50) else xs

/-- State change performed by one flush cycle: only the two latency sample
lists are trimmed; every counter is read, reported, and left unchanged. -/
def flushState (st : AggState) : AggState :=
  { st with endpointLatencies := trimLatencies st.endpointLatencies
            pizzaCreationLatencies := trimLatencies st.pizzaCreationLatencies }

/-- The observable events that mutate aggregator state: the request-arrival
half and response-finish half of `requestTracker`, the business event hooks,
and one periodic flush tick. -/
inductive Event where
  | onRequest (method : String) : Event
  | onFinish (endpoint : String) (latency : ℚ) : Event
  | authAttempt (success : Bool) : Event
  | userLogin (id : String) : Event
  | userLogout (id : String) : Event
  | pizzaPurchase (success : Bool) (latency price : Option ℚ) : Event
  | flush : Event
deriving Repr, DecidableEq

/-- State transition of one event, assembled from the metrics.js hooks. -/
def step (st : AggState) : Event → AggState
  | Event.onRequest m => { st with requests := bumpRequest st.requests m }
  | Event.onFinish e l =>
      { st with endpointLatencies := pushCapped1000 st.endpointLatencies (e, l) }
  | Event.authAttempt true => { st with authSuccessCount := st.authSuccessCount + 1 }
  | Event.authAttempt false => { st with authFailureCount := st.authFailureCount + 1 }
  | Event.userLogin id => { st with activeUsers := insertUser st.activeUsers id }
  | Event.userLogout id => { st with activeUsers := st.activeUsers.filter (fun u => u ≠ id) }
  | Event.pizzaPurchase s l p => trackPizzaPurchase st s l p
  | Event.flush => flushState st

/-- Run a sequence of events from a state. -/
def run (st : AggState) (evs : List Event) : AggState :=
  evs.foldl step st

/-- In a `pizzaPurchase` event a supplied price is non-negative (spec §3:
`pizzaRevenueTotal` receives non-negative increments only); every other
event trivially satisfies the predicate. -/
def priceNonneg : Event → Prop
  | Event.pizzaPurchase _ _ (some p) => 0 ≤ p
  | _ => True

instance : ∀ e : Event, Decidable (priceNonneg e) := by
  intro e
  cases e with
  | pizzaPurchase s l p =>
      cases p with
      | none => exact isTrue trivial
      | some q => exact inferInstanceAs (Decidable (0 ≤ q))
  | onRequest m => exact isTrue trivial
  | onFinish e l => exact isTrue trivial
  | authAttempt s => exact isTrue trivial
  | userLogin i => exact isTrue trivial
  | userLogout i => exact isTrue trivial
  | flush => exact isTrue trivial

/-!
### Flush-cycle metric batch (`sendMetricsPeriodically`, `createMetric`)
-/

/-- JS `Math.round`: round half toward positive infinity. -/
def jsRound (q : ℚ) : ℤ :=
  ⌊q + 1/2⌋

/-- `getAverageLatency` on the endpoint list of `{ endpoint, latency }`
pairs: 0 when empty, otherwise `Math.round(sum / length)`. -/
def getAverageLatencyP (xs : List (String × ℚ)) : ℤ :=
  if xs.length = 0 then 0
  else jsRound ((xs.map Prod.snd).sum / (xs.length : ℚ))

/-- `getAverageLatency` on the plain numeric pizza-latency list. -/
def getAverageLatencyN (xs : List ℚ) : ℤ :=
  if xs.length = 0 then 0
  else jsRound (xs.sum / (xs.length : ℚ))

/-- One wire metric as built by `createMetric`: name, unit, whether it is a
`sum` or a `gauge`, the `asInt`/`asDouble` value slot, the value, and the
attribute list; sums additionally carry the cumulative-temporality and
monotonic flags. -/
structure MetricSample where
  name : String
  unit : String
  kind : String
  valueType : String
  value : ℚ
  attributes : List (String × String)
  temporality : Option String
  isMonotonic : Option Bool
deriving Repr, DecidableEq

/-- `createMetric(name, value, unit, type, valueType, attributes)`:
attributes are the per-sample ones followed by the `source` attribute from
configuration; `sum` metrics get cumulative temporality and the monotonic
flag. -/
def createMetric (source name unit kind valueType : String) (value : ℚ)
    (attrs : List (String × String)) : MetricSample :=
  { name := name, unit := unit, kind := kind, valueType := valueType
    value := value
    attributes := attrs ++ [("source", source)]
    temporality := if kind = "sum" then some "AGGREGATION_TEMPORALITY_CUMULATIVE" else none
    isMonotonic := if kind = "sum" then some true else none }

/-- The http-request portion of one flush batch (logger.js lines 361-380):
one cumulative sum sample per method bucket, then unconditionally one
aggregate sample with `method = "ALL"` carrying the sum of all buckets. -/
def httpRequestMetrics (source : String) (st : AggState) : List MetricSample :=
  st.requests.map (fun mc =>
    createMetric source "http_requests_total" "1" "sum" "asInt" (mc.2 : ℚ) [("method", mc.1)])
  ++ [createMetric source "http_requests_total" "1" "sum" "asInt"
        (((st.requests.map Prod.snd).sum : Nat) : ℚ) [("method", "ALL")]]

/-- The middle portion of one flush batch (logger.js lines 385-404), in
source order: the active-user gauge, the two auth counters, the CPU and
memory gauges, and the three pizza counters — all emitted unconditionally
("ALWAYS SENT"). -/
def fixedMetrics (source : String) (cpu mem : ℚ) (st : AggState) : List MetricSample :=
  [createMetric source "active_users" "1" "gauge" "asInt" (st.activeUsers.length : ℚ) [],
   createMetric source "auth_attempts_total" "1" "sum" "asInt"
     (st.authSuccessCount : ℚ) [("status", "success")],
   createMetric source "auth_attempts_total" "1" "sum" "asInt"
     (st.authFailureCount : ℚ) [("status", "failure")],
   createMetric source "cpu_usage_percent" "%" "gauge" "asDouble" cpu [],
   createMetric source "memory_usage_percent" "%" "gauge" "asDouble" mem [],
   createMetric source "pizza_sold_total" "1" "sum" "asInt" (st.pizzaSoldCount : ℚ) [],
   createMetric source "pizza_creation_failures_total" "1" "sum" "asInt"
     (st.pizzaCreationFailures : ℚ) [],
   createMetric source "pizza_revenue_total" "1" "sum" "asDouble" st.pizzaRevenue []]

/-- The endpoint-latency gauge portion of one flush batch (logger.js lines
409-412): emitted only when `getAverageLatency(endpointLatencies) > 0`. -/
def endpointLatencyMetrics (source : String) (st : AggState) : List MetricSample :=
  if 0 < getAverageLatencyP st.endpointLatencies then
    [createMetric source "endpoint_latency_ms" "ms" "gauge" "asInt"
      ((getAverageLatencyP st.endpointLatencies : ℤ) : ℚ) []]
  else []

/-- The pizza-latency gauge portion of one flush batch (logger.js lines
414-417): emitted only when `getAverageLatency(pizzaCreationLatencies) > 0`. -/
def pizzaLatencyMetrics (source : String) (st : AggState) : List MetricSample :=
  if 0 < getAverageLatencyN st.pizzaCreationLatencies then
    [createMetric source "pizza_creation_latency_ms" "ms" "gauge" "asInt"
      ((getAverageLatencyN st.pizzaCreationLatencies : ℤ) : ℚ) []]
  else []

/-- The full metric batch built by one `sendMetricsPeriodically` tick, in
source order (logger.js lines 356-417).  The CPU and memory gauges read the
host OS, so their sampled values are parameters here. -/
def flushMetrics (source : String) (cpu mem : ℚ) (st : AggState) : List MetricSample :=
  httpRequestMetrics source st
  ++ fixedMetrics source cpu mem st
  ++ endpointLatencyMetrics source st
  ++ pizzaLatencyMetrics source st

/-- `sendMetricToGrafana(metrics)` (logger.js lines 314-350): empty batches
return early; otherwise the function immediately dereferences
`config.metrics.apiKey.includes(':')` with NO configuration guard, so an
absent API key raises a TypeError synchronously into the caller; with a key
present, the Basic/Bearer header is chosen by colon presence and the POST
is issued to `config.metrics.url` interpolated into a template literal
(an absent url yields the literal text "undefined"). -/
def sendMetricToGrafana (cfg : MetricsConfig) (metrics : List MetricSample) :
    Except String SendOutcome :=
  if metrics.length = 0 then Except.ok SendOutcome.skippedEmpty
  else
    match cfg.apiKey with
    | none =>
        Except.error "TypeError: Cannot read properties of undefined (reading includes)"
    | some key =>
        let auth :=
          if strContainsSub key ":" then AuthHeader.basic key else AuthHeader.bearer key
        Except.ok (SendOutcome.attempted (jsShow cfg.url) auth)

/-!
### Scheduler (`startMetricsReporting`, logger.js lines 436-443)
-/

/-- Scheduler state: the interval timers currently armed, the module-level
`metricsTimer` handle, and a fresh-id counter for new timers. -/
structure SchedState where
  active : List Nat
  current : Option Nat
  nextId : Nat
deriving Repr, DecidableEq

/-- Initial scheduler state: `metricsTimer = null`, nothing armed. -/
def schedInit : SchedState :=
  { active := [], current := none, nextId := 0 }

/-- `startMetricsReporting(period)`: if `metricsTimer` is set, cancel that
interval first; then arm a fresh interval and store its handle. -/
def startMetricsReporting (s : SchedState) : SchedState :=
  let act :=
    match s.current with
    | some t => s.active.erase t
    | none => s.active
  { active := act ++ [s.nextId], current := some s.nextId, nextId := s.nextId + 1 }

/-- `n` successive calls to `startMetricsReporting` from process start. -/
def startIter : Nat → SchedState
  | 0 => schedInit
  | n + 1 => startMetricsReporting (startIter n)

/-!
## Lemmas and claim theorems
-/

lemma runCalls_append (r : ResState) (cs : List FinCall) (c : FinCall) :
    runCalls r (cs ++ [c]) = applyCall (runCalls r cs) c := by
  simp [runCalls, List.foldl_append]

lemma runCalls_install_char (cs : List FinCall) :
    ((runCalls installLogger cs).sendWrapped = true ↔ cs = []) ∧
    ((runCalls installLogger cs).jsonWrapped = true ↔ FinCall.json ∉ cs) ∧
    (runCalls installLogger cs).logCount =
      (if cs = [] then 0 else 1) + (if FinCall.json ∈ cs then 1 else 0) := by
  induction cs using List.reverseRecOn with
  | nil => simp [runCalls, installLogger]
  | append_singleton cs c ih =>
      obtain ⟨h1, h2, h3⟩ := ih
      rw [runCalls_append]
      have hne : cs ++ [c] ≠ [] := by simp
      cases c with
      | send =>
          by_cases hcs : cs = []
          · subst hcs
            simp only [runCalls] at *
            simp [applyCall, callSend, installLogger, List.foldl]
          · have hs : (runCalls installLogger cs).sendWrapped = false := by
              rcases hb : (runCalls installLogger cs).sendWrapped with _ | _
              · rfl
              · exact absurd (h1.mp hb) hcs
            simp [applyCall, callSend, hs, h2, h3, hcs, hne]
      | json =>
          by_cases hj : FinCall.json ∈ cs
          · have hcs : cs ≠ [] := by rintro rfl; simp at hj
            have hs : (runCalls installLogger cs).sendWrapped = false := by
              rcases hb : (runCalls installLogger cs).sendWrapped with _ | _
              · rfl
              · exact absurd (h1.mp hb) hcs
            have hjw : (runCalls installLogger cs).jsonWrapped = false := by
              rcases hb : (runCalls installLogger cs).jsonWrapped with _ | _
              · rfl
              · exact absurd hj (h2.mp hb)
            simp [applyCall, callJson, callSend, hs, hjw, h3, hcs, hne, hj]
          · by_cases hcs : cs = []
            · subst hcs
              simp only [runCalls] at *
              simp [applyCall, callJson, callSend, installLogger, List.foldl]
            · have hs : (runCalls installLogger cs).sendWrapped = false := by
                rcases hb : (runCalls installLogger cs).sendWrapped with _ | _
                · rfl
                · exact absurd (h1.mp hb) hcs
              have hjw : (runCalls installLogger cs).jsonWrapped = true := h2.mpr hj
              simp [applyCall, callJson, callSend, hs, hjw, h3, hcs, hne, hj]

/-- C4 counterexample: a single structured JSON send, which internally
invokes the (still wrapped) direct body send, produces TWO http log events,
not one — the two wrappers guard only their own slot and share no
logged-once flag. -/
theorem json_send_double_logs :
    (runCalls installLogger [FinCall.json]).logCount = 2 ∧
    ¬ (runCalls installLogger [FinCall.json]).logCount = 1 := by
  constructor
  · rfl
  · intro h
    exact absurd h (by decide)

/-- C4 (amended): each wrapper logs at most once per request — a request
finalized only through direct body sends produces exactly one http log
event no matter how many times send fires; but a finalization sequence
containing a structured JSON send produces exactly two events (the JSON
wrapper logs, then its delegation to the still-wrapped direct send logs
again), because the wrappers restore only their own slot. -/
theorem httpLogger_log_count (cs : List FinCall) (h : cs ≠ []) :
    (runCalls installLogger cs).logCount = if FinCall.json ∈ cs then 2 else 1 := by
  have hc := (runCalls_install_char cs).2.2
  rw [hc, if_neg h]
  by_cases hj : FinCall.json ∈ cs <;> simp [hj]

/-- Witness for `httpLogger_log_count`: a request finalized by two direct
sends logs exactly once. -/
theorem httpLogger_log_count_witness :
    (runCalls installLogger [FinCall.send, FinCall.send]).logCount = 1 := by
  have h := httpLogger_log_count [FinCall.send, FinCall.send] (by decide)
  simpa using h

/-- C5 counterexample: the factory-request logger derives its level with
`statusCode >= 400 || error ? 'warn' : 'info'`, so a factory status 500
yields "warn" where `statusToLogLevel` yields "error" — the mapping is not
applied uniformly at every call site deriving a level from a status. -/
theorem factory_level_differs :
    factoryLogLevel 500 false = "warn" ∧ statusToLogLevel 500 = "error" ∧
    ¬ factoryLogLevel 500 false = statusToLogLevel 500 := by
  refine ⟨by decide, by decide, by decide⟩

/-- C5 (amended): `statusToLogLevel` maps status ≥ 500 to "error",
400 ≤ status < 500 to "warn" and status < 400 to "info", and the HTTP
interceptor derives its level exactly through it; the factory logger
instead maps status ≥ 400 (or a present error) to "warn" and everything
else to "info", never producing "error". -/
theorem status_level_mapping (s : ℤ) (err : Bool) :
    (500 ≤ s → statusToLogLevel s = "error") ∧
    (400 ≤ s → s < 500 → statusToLogLevel s = "warn") ∧
    (s < 400 → statusToLogLevel s = "info") ∧
    httpLogLevel s = statusToLogLevel s ∧
    (400 ≤ s → factoryLogLevel s err = "warn") ∧
    (err = true → factoryLogLevel s err = "warn") ∧
    (s < 400 → err = false → factoryLogLevel s err = "info") := by
  refine ⟨fun h => ?_, fun h1 h2 => ?_, fun h => ?_, rfl, fun h => ?_, fun h => ?_,
    fun h1 h2 => ?_⟩
  · unfold statusToLogLevel
    rw [if_pos h]
  · unfold statusToLogLevel
    rw [if_neg (by omega), if_pos h1]
  · unfold statusToLogLevel
    rw [if_neg (by omega), if_neg (by omega)]
  · unfold factoryLogLevel
    rw [if_pos (Or.inl h)]
  · unfold factoryLogLevel
    rw [if_pos (Or.inr h)]
  · unfold factoryLogLevel
    rw [if_neg ?_]
    rintro (h3 | h3)
    · omega
    · rw [h2] at h3
      exact Bool.noConfusion h3

/-- Witness for `status_level_mapping` at concrete statuses. -/
theorem status_level_mapping_witness :
    statusToLogLevel 503 = "error" ∧ statusToLogLevel 404 = "warn" ∧
    statusToLogLevel 200 = "info" ∧ httpLogLevel 503 = statusToLogLevel 503 ∧
    factoryLogLevel 404 false = "warn" ∧ factoryLogLevel 200 true = "warn" ∧
    factoryLogLevel 200 false = "info" :=
  ⟨(status_level_mapping 503 false).1 (by decide),
   (status_level_mapping 404 false).2.1 (by decide) (by decide),
   (status_level_mapping 200 false).2.2.1 (by decide),
   (status_level_mapping 503 false).2.2.2.1,
   (status_level_mapping 404 false).2.2.2.2.1 (by decide),
   (status_level_mapping 200 true).2.2.2.2.2.1 rfl,
   (status_level_mapping 200 false).2.2.2.2.2.2 (by decide) rfl⟩

/-- A concrete metric sample used by the transport theorems. -/
def exSample : MetricSample :=
  createMetric "svc" "active_users" "1" "gauge" "asInt" 1 []

/-- C6 counterexample: `sendMetricToGrafana` performs no configuration
check at all — with a present URL but an absent API key and a non-empty
batch it dereferences `config.metrics.apiKey.includes(':')` and raises a
TypeError into its caller instead of reporting a configuration diagnostic
and returning normally. -/
theorem metric_send_missing_key_raises :
    sendMetricToGrafana
        { url := some "https://collector.example", apiKey := none, source := some "svc" }
        [exSample]
      = Except.error "TypeError: Cannot read properties of undefined (reading includes)" :=
  rfl

/-- C6 (amended): the LOG sink behaves as claimed — an absent `config.logging`
object or a falsy url/apiKey makes `sendLogToGrafana` a no-op that reports a
configuration diagnostic and returns normally; the METRIC sink does not: on a
non-empty batch an absent API key raises a TypeError to the caller, and with
any present API key it attempts delivery unconditionally (an absent URL is
interpolated as the literal text "undefined"). -/
theorem transport_config_guard (cfg : LoggingConfig) (mcfg : MetricsConfig)
    (ms : List MetricSample) (k : String) (hms : ms ≠ []) :
    (falsyOptStr cfg.url = true → sendLogToGrafana (some cfg) = SendOutcome.configSkip) ∧
    (falsyOptStr cfg.apiKey = true → sendLogToGrafana (some cfg) = SendOutcome.configSkip) ∧
    sendLogToGrafana none = SendOutcome.configSkip ∧
    (mcfg.apiKey = none → sendMetricToGrafana mcfg ms
        = Except.error "TypeError: Cannot read properties of undefined (reading includes)") ∧
    (mcfg.apiKey = some k → sendMetricToGrafana mcfg ms
        = Except.ok (SendOutcome.attempted (jsShow mcfg.url)
            (if strContainsSub k ":" then AuthHeader.basic k else AuthHeader.bearer k))) := by
  have hlen : ¬ ms.length = 0 := by
    simpa [List.length_eq_zero] using hms
  refine ⟨fun h => ?_, fun h => ?_, rfl, fun h => ?_, fun h => ?_⟩
  · simp [sendLogToGrafana, h]
  · simp [sendLogToGrafana, h]
  · simp [sendMetricToGrafana, hlen, h]
  · simp [sendMetricToGrafana, hlen, h]

/-- A logging configuration with the URL absent. -/
def exLogCfg : LoggingConfig :=
  { url := none, apiKey := some "key", userId := some "u", source := some "svc" }

/-- A metrics configuration with the URL absent but an API key present. -/
def exMetricCfg : MetricsConfig :=
  { url := none, apiKey := some "glc71x", source := some "svc" }

/-- Witness for `transport_config_guard`: a logging config with no URL is
skipped with a diagnostic; a metric push with a colon-free API key goes out
with a Bearer header (here to the literal URL "undefined"). -/
theorem transport_config_guard_witness :
    sendLogToGrafana (some exLogCfg) = SendOutcome.configSkip ∧
    sendMetricToGrafana exMetricCfg [exSample]
      = Except.ok (SendOutcome.attempted (jsShow exMetricCfg.url)
          (if strContainsSub "glc71x" ":" then AuthHeader.basic "glc71x"
           else AuthHeader.bearer "glc71x")) := by
  have h := transport_config_guard exLogCfg exMetricCfg [exSample] "glc71x" (by simp)
  exact ⟨h.1 rfl, h.2.2.2.2 rfl⟩

/-- A 51-character string containing no occurrence of "password". -/
def longParam : String :=
  String.mk (List.replicate 51 'a')

/-- C3 counterexample: `sanitizeParams` in logger.js also redacts ANY string
longer than 50 characters (`param.length > 50`), so a 51-character string
that does not contain "password" is replaced by the marker rather than
returned unchanged. -/
theorem sanitizeParams_long_string_redacted :
    strContainsSub (strToLower longParam) "password" = false ∧
    sanitizeParams [Json.str longParam] = [Json.str "*****"] ∧
    ¬ sanitizeParams [Json.str longParam] = [Json.str longParam] := by
  refine ⟨by decide, rfl, fun h => ?_⟩
  have h1 : Json.str "*****" = Json.str longParam := by
    have h0 : sanitizeParams [Json.str longParam] = [Json.str "*****"] := rfl
    rw [h0] at h
    exact List.head_eq_of_cons_eq h
  injection h1 with h2
  exact absurd h2 (by decide)

/-- C3 (amended): `sanitizeParams` replaces exactly those elements that are
strings whose lowercase form contains "password" OR whose length exceeds 50
characters with the marker "*****"; every other element — non-strings and
short password-free strings — passes through unchanged; in particular
`sanitizeParams(["a","secretpassword","b"]) = ["a","*****","b"]`. -/
theorem sanitizeParams_spec :
    (∀ (params : List Json) (i : Nat) (s : String),
        params.get? i = some (Json.str s) →
        (sanitizeParams params).get? i =
          some (if strContainsSub (strToLower s) "password" || s.length > 50
                then Json.str "*****" else Json.str s)) ∧
    (∀ (params : List Json) (i : Nat) (p : Json),
        params.get? i = some p → (∀ t, ¬ p = Json.str t) →
        (sanitizeParams params).get? i = some p) ∧
    sanitizeParams [Json.str "a", Json.str "secretpassword", Json.str "b"]
      = [Json.str "a", Json.str "*****", Json.str "b"] := by
  refine ⟨fun params i s hs => ?_, fun params i p hp hnp => ?_, rfl⟩
  · rw [sanitizeParams, List.get?_map, hs]
    rfl
  · rw [sanitizeParams, List.get?_map, hp]
    cases p with
    | str t => exact absurd rfl (hnp t)
    | null => rfl
    | bool b => rfl
    | num q => rfl
    | arr xs => rfl
    | obj kvs => rfl

/-- Witness for `sanitizeParams_spec`: element-level redaction and
pass-through at concrete inputs. -/
theorem sanitizeParams_spec_witness :
    (sanitizeParams [Json.str "a", Json.str "secretpassword"]).get? 1
      = some (if strContainsSub (strToLower "secretpassword") "password"
                || String.length "secretpassword" > 50
              then Json.str "*****" else Json.str "secretpassword") ∧
    (sanitizeParams [Json.num 7]).get? 0 = some (Json.num 7) :=
  ⟨sanitizeParams_spec.1 [Json.str "a", Json.str "secretpassword"] 1 "secretpassword" rfl,
   sanitizeParams_spec.2.1 [Json.num 7] 0 (Json.num 7) rfl
     (fun t h => Json.noConfusion h)⟩

lemma startIter_succ (n : Nat) :
    startIter (n + 1) = { active := [n], current := some n, nextId := n + 1 } := by
  induction n with
  | zero => rfl
  | succ k ih =>
      show startMetricsReporting (startIter (k + 1)) = _
      rw [ih]
      simp [startMetricsReporting]

/-- C9: after any positive number of successive `startMetricsReporting`
calls from process start, exactly one interval timer is armed — a restart
first cancels the timer recorded in `metricsTimer` before arming the fresh
one, so repeated restarts never stack timers. -/
theorem scheduler_restart_single_timer (n : Nat) (h : 0 < n) :
    (startIter n).active = [n - 1] ∧ (startIter n).active.length = 1 := by
  obtain ⟨k, rfl⟩ : ∃ k, n = k + 1 := ⟨n - 1, (Nat.succ_pred_eq_of_pos h).symm⟩
  rw [startIter_succ]
  simp

/-- Witness for `scheduler_restart_single_timer`: two successive restarts
leave exactly one active timer. -/
theorem scheduler_restart_single_timer_witness :
    (startIter 2).active = [1] ∧ (startIter 2).active.length = 1 :=
  scheduler_restart_single_timer 2 (by decide)

/-- C10: frame property of `trackPizzaPurchase` — a failed purchase bumps
only the failure counter (sold count and revenue are untouched), a
successful purchase leaves the failure counter untouched, the latency list
changes exactly when a latency was supplied, and no other aggregator state
(request counts, auth counters, active-user set, endpoint latencies) is
modified in either case. -/
theorem trackPizzaPurchase_frame (st : AggState) (success : Bool)
    (latency price : Option ℚ) :
    (trackPizzaPurchase st success latency price).pizzaSoldCount
        = st.pizzaSoldCount + (if success then 1 else 0) ∧
    (trackPizzaPurchase st success latency price).pizzaCreationFailures
        = st.pizzaCreationFailures + (if success then 0 else 1) ∧
    (trackPizzaPurchase st success latency price).pizzaRevenue
        = st.pizzaRevenue + (if success then price.getD 0 else 0) ∧
    (trackPizzaPurchase st success latency price).pizzaCreationLatencies
        = (match latency with
           | some l => pushCapped1000 st.pizzaCreationLatencies l
           | none => st.pizzaCreationLatencies) ∧
    (trackPizzaPurchase st success latency price).requests = st.requests ∧
    (trackPizzaPurchase st success latency price).authSuccessCount = st.authSuccessCount ∧
    (trackPizzaPurchase st success latency price).authFailureCount = st.authFailureCount ∧
    (trackPizzaPurchase st success latency price).activeUsers = st.activeUsers ∧
    (trackPizzaPurchase st success latency price).endpointLatencies = st.endpointLatencies := by
  cases success <;> cases latency <;> simp [trackPizzaPurchase]

lemma lookupCount_bump_le (l : List (String × Nat)) (m mq : String) :
    lookupCount l mq ≤ lookupCount (bumpRequest l m) mq := by
  induction l with
  | nil =>
      simp only [bumpRequest, lookupCount]
      split <;> omega
  | cons kc rest ih =>
      obtain ⟨k, c⟩ := kc
      by_cases hk : k = m
      · simp only [bumpRequest, if_pos hk, lookupCount]
        by_cases hq : k = mq <;> simp [hq]
      · simp only [bumpRequest, if_neg hk, lookupCount]
        by_cases hq : k = mq <;> simp [hq, ih]

lemma counters_step_le (st : AggState) (e : Event) (m : String) (hp : priceNonneg e) :
    lookupCount st.requests m ≤ lookupCount (step st e).requests m ∧
    st.authSuccessCount ≤ (step st e).authSuccessCount ∧
    st.authFailureCount ≤ (step st e).authFailureCount ∧
    st.pizzaSoldCount ≤ (step st e).pizzaSoldCount ∧
    st.pizzaCreationFailures ≤ (step st e).pizzaCreationFailures ∧
    st.pizzaRevenue ≤ (step st e).pizzaRevenue := by
  cases e with
  | onRequest me =>
      exact ⟨lookupCount_bump_le _ me m, le_refl _, le_refl _, le_refl _, le_refl _, le_refl _⟩
  | onFinish ep l =>
      exact ⟨le_refl _, le_refl _, le_refl _, le_refl _, le_refl _, le_refl _⟩
  | authAttempt s =>
      cases s with
      | false => exact ⟨le_refl _, le_refl _, Nat.le_succ _, le_refl _, le_refl _, le_refl _⟩
      | true => exact ⟨le_refl _, Nat.le_succ _, le_refl _, le_refl _, le_refl _, le_refl _⟩
  | userLogin id =>
      exact ⟨le_refl _, le_refl _, le_refl _, le_refl _, le_refl _, le_refl _⟩
  | userLogout id =>
      exact ⟨le_refl _, le_refl _, le_refl _, le_refl _, le_refl _, le_refl _⟩
  | flush =>
      exact ⟨le_refl _, le_refl _, le_refl _, le_refl _, le_refl _, le_refl _⟩
  | pizzaPurchase s l p =>
      have h0 : (0 : ℚ) ≤ p.getD 0 := by
        cases p with
        | none => exact le_refl 0
        | some q => exact hp
      cases s <;> cases l <;>
        refine ⟨le_refl _, le_refl _, le_refl _, ?_, ?_, ?_⟩ <;>
        first
          | exact le_refl _
          | exact Nat.le_succ _
          | exact le_add_of_nonneg_right h0

lemma counters_run_le (st : AggState) (evs : List Event) (m : String)
    (hp : ∀ e ∈ evs, priceNonneg e) :
    lookupCount st.requests m ≤ lookupCount (run st evs).requests m ∧
    st.authSuccessCount ≤ (run st evs).authSuccessCount ∧
    st.authFailureCount ≤ (run st evs).authFailureCount ∧
    st.pizzaSoldCount ≤ (run st evs).pizzaSoldCount ∧
    st.pizzaCreationFailures ≤ (run st evs).pizzaCreationFailures ∧
    st.pizzaRevenue ≤ (run st evs).pizzaRevenue := by
  induction evs generalizing st with
  | nil =>
      exact ⟨le_refl _, le_refl _, le_refl _, le_refl _, le_refl _, le_refl _⟩
  | cons e evs ih =>
      have h1 := counters_step_le st e m (hp e (List.mem_cons_self e evs))
      have h2 := ih (step st e) (fun x hx => hp x (List.mem_cons_of_mem e hx))
      exact ⟨le_trans h1.1 h2.1, le_trans h1.2.1 h2.2.1, le_trans h1.2.2.1 h2.2.2.1,
        le_trans h1.2.2.2.1 h2.2.2.2.1, le_trans h1.2.2.2.2.1 h2.2.2.2.2.1,
        le_trans h1.2.2.2.2.2 h2.2.2.2.2.2⟩

/-- C1: over any sequence of event-hook calls interleaved with arbitrarily
many flush cycles (with supplied prices non-negative, as the data model
requires), every cumulative counter — each per-method request count, the
auth success/failure counters, `pizzaSoldCount`, `pizzaCreationFailures`
and `pizzaRevenue` — is monotonically non-decreasing; moreover one flush
cycle leaves every one of these counters exactly unchanged (it only reads
and reports them), so values reported at successive flushes never
decrease. -/
theorem cumulative_counters_monotone (st : AggState) (evs : List Event) (m : String)
    (hp : ∀ e ∈ evs, priceNonneg e) :
    (lookupCount st.requests m ≤ lookupCount (run st evs).requests m ∧
     st.authSuccessCount ≤ (run st evs).authSuccessCount ∧
     st.authFailureCount ≤ (run st evs).authFailureCount ∧
     st.pizzaSoldCount ≤ (run st evs).pizzaSoldCount ∧
     st.pizzaCreationFailures ≤ (run st evs).pizzaCreationFailures ∧
     st.pizzaRevenue ≤ (run st evs).pizzaRevenue) ∧
    (lookupCount (step st Event.flush).requests m = lookupCount st.requests m ∧
     (step st Event.flush).authSuccessCount = st.authSuccessCount ∧
     (step st Event.flush).authFailureCount = st.authFailureCount ∧
     (step st Event.flush).pizzaSoldCount = st.pizzaSoldCount ∧
     (step st Event.flush).pizzaCreationFailures = st.pizzaCreationFailures ∧
     (step st Event.flush).pizzaRevenue = st.pizzaRevenue) :=
  ⟨counters_run_le st evs m hp, rfl, rfl, rfl, rfl, rfl, rfl⟩

/-- A concrete event trace with two purchases, a flush in between, one
request and one auth success. -/
def evsW : List Event :=
  [Event.onRequest "GET", Event.pizzaPurchase true (some 120) (some 10),
   Event.flush, Event.pizzaPurchase false (some 80) none, Event.authAttempt true]

/-- Witness for `cumulative_counters_monotone` on the concrete trace
`evsW`. -/
theorem cumulative_counters_monotone_witness :
    initState.pizzaSoldCount ≤ (run initState evsW).pizzaSoldCount ∧
    initState.pizzaRevenue ≤ (run initState evsW).pizzaRevenue ∧
    lookupCount initState.requests "GET"
      ≤ lookupCount (run initState evsW).requests "GET" ∧
    (step initState Event.flush).pizzaSoldCount = initState.pizzaSoldCount := by
  have h := cumulative_counters_monotone initState evsW "GET" (by decide)
  exact ⟨h.1.2.2.2.1, h.1.2.2.2.2.2, h.1.1, h.2.2.2.2.1⟩

lemma bumpRequest_pos (l : List (String × Nat)) (m : String)
    (h : ∀ q ∈ l, 0 < q.2) : ∀ q ∈ bumpRequest l m, 0 < q.2 := by
  induction l with
  | nil =>
      intro q hq
      simp only [bumpRequest, List.mem_singleton] at hq
      subst hq
      exact Nat.one_pos
  | cons kc rest ih =>
      intro q hq
      obtain ⟨k, c⟩ := kc
      by_cases hk : k = m
      · simp only [bumpRequest, if_pos hk] at hq
        rcases List.mem_cons.mp hq with h1 | h1
        · subst h1
          exact Nat.succ_pos c
        · exact h q (List.mem_cons_of_mem _ h1)
      · simp only [bumpRequest, if_neg hk] at hq
        rcases List.mem_cons.mp hq with h1 | h1
        · subst h1
          exact h (k, c) (List.mem_cons_self _ _)
        · exact ih (fun x hx => h x (List.mem_cons_of_mem _ hx)) q h1

lemma run_requests_pos (evs : List Event) (st : AggState)
    (h : ∀ q ∈ st.requests, 0 < q.2) : ∀ q ∈ (run st evs).requests, 0 < q.2 := by
  induction evs generalizing st with
  | nil => exact h
  | cons e evs ih =>
      refine ih (step st e) ?_
      cases e with
      | onRequest me => exact bumpRequest_pos st.requests me h
      | onFinish ep l => exact h
      | authAttempt s => cases s <;> exact h
      | userLogin id => exact h
      | userLogout id => exact h
      | flush => exact h
      | pizzaPurchase s l p => cases s <;> cases l <;> exact h

lemma filter_name_httpBlock (source : String) (st : AggState) :
    (httpRequestMetrics source st).filter
        (fun s => decide (s.name = "http_requests_total"))
      = httpRequestMetrics source st := by
  rw [List.filter_eq_self]
  intro a ha
  unfold httpRequestMetrics at ha
  rcases List.mem_append.mp ha with hh | hh
  · obtain ⟨mc, hmc, rfl⟩ := List.mem_map.mp hh
    simp [createMetric]
  · simp only [List.mem_singleton] at hh
    subst hh
    simp [createMetric]

lemma filter_other_httpBlock (source : String) (st : AggState) (nm : String)
    (hnm : ¬ nm = "http_requests_total") :
    (httpRequestMetrics source st).filter (fun s => decide (s.name = nm)) = [] := by
  rw [List.filter_eq_nil]
  intro a ha
  unfold httpRequestMetrics at ha
  rcases List.mem_append.mp ha with hh | hh
  · obtain ⟨mc, hmc, rfl⟩ := List.mem_map.mp hh
    simpa [createMetric] using fun hcon => hnm hcon.symm
  · simp only [List.mem_singleton] at hh
    subst hh
    simpa [createMetric] using fun hcon => hnm hcon.symm

lemma filter_http (source : String) (cpu mem : ℚ) (st : AggState) :
    (flushMetrics source cpu mem st).filter
        (fun s => decide (s.name = "http_requests_total"))
      = httpRequestMetrics source st := by
  unfold flushMetrics
  rw [List.filter_append, List.filter_append, List.filter_append,
    filter_name_httpBlock]
  have h2 : (fixedMetrics source cpu mem st).filter
      (fun s => decide (s.name = "http_requests_total")) = [] := rfl
  have h3 : (endpointLatencyMetrics source st).filter
      (fun s => decide (s.name = "http_requests_total")) = [] := by
    unfold endpointLatencyMetrics
    split <;> rfl
  have h4 : (pizzaLatencyMetrics source st).filter
      (fun s => decide (s.name = "http_requests_total")) = [] := by
    unfold pizzaLatencyMetrics
    split <;> rfl
  rw [h2, h3, h4]
  simp

/-- C7: at every flush cycle the batch's `http_requests_total` samples are
exactly one cumulative sum sample per method bucket of the request map
(each bucket of a reachable state carries a positive count), followed by
exactly one aggregate sample with attribute `method = "ALL"` whose value is
the sum over all buckets; concretely, after requests GET, GET, POST the
batch carries `{method=GET}=2`, `{method=POST}=1`, `{method=ALL}=3`. -/
theorem flush_http_request_samples (source : String) (cpu mem : ℚ)
    (evs : List Event) (m : String) (c : Nat)
    (hm : (m, c) ∈ (run initState evs).requests) :
    0 < c ∧
    (flushMetrics source cpu mem (run initState evs)).filter
        (fun s => decide (s.name = "http_requests_total"))
      = (run initState evs).requests.map (fun mc =>
          createMetric source "http_requests_total" "1" "sum" "asInt" (mc.2 : ℚ)
            [("method", mc.1)])
        ++ [createMetric source "http_requests_total" "1" "sum" "asInt"
              ((((run initState evs).requests.map Prod.snd).sum : Nat) : ℚ)
              [("method", "ALL")]] ∧
    (flushMetrics "svc" 0 0 (run initState
        [Event.onRequest "GET", Event.onRequest "GET", Event.onRequest "POST"])).filter
        (fun s => decide (s.name = "http_requests_total"))
      = [createMetric "svc" "http_requests_total" "1" "sum" "asInt" ((2 : Nat) : ℚ)
            [("method", "GET")],
         createMetric "svc" "http_requests_total" "1" "sum" "asInt" ((1 : Nat) : ℚ)
            [("method", "POST")],
         createMetric "svc" "http_requests_total" "1" "sum" "asInt" ((3 : Nat) : ℚ)
            [("method", "ALL")]] := by
  refine ⟨run_requests_pos evs initState (by intro q hq; cases hq) (m, c) hm, ?_, ?_⟩
  · rw [filter_http]
    rfl
  · decide

/-- Witness for `flush_http_request_samples` on a one-request trace. -/
theorem flush_http_request_samples_witness :
    0 < 1 ∧
    (flushMetrics "svc" 0 0 (run initState [Event.onRequest "GET"])).filter
        (fun s => decide (s.name = "http_requests_total"))
      = (run initState [Event.onRequest "GET"]).requests.map (fun mc =>
          createMetric "svc" "http_requests_total" "1" "sum" "asInt" (mc.2 : ℚ)
            [("method", mc.1)])
        ++ [createMetric "svc" "http_requests_total" "1" "sum" "asInt"
              ((((run initState [Event.onRequest "GET"]).requests.map Prod.snd).sum : Nat) : ℚ)
              [("method", "ALL")]] := by
  have h := flush_http_request_samples "svc" 0 0 [Event.onRequest "GET"] "GET" 1 (by decide)
  exact ⟨h.1, h.2.1⟩

lemma filter_endpoint (source : String) (cpu mem : ℚ) (st : AggState) :
    (flushMetrics source cpu mem st).filter
        (fun s => decide (s.name = "endpoint_latency_ms"))
      = endpointLatencyMetrics source st := by
  unfold flushMetrics
  rw [List.filter_append, List.filter_append, List.filter_append,
    filter_other_httpBlock source st "endpoint_latency_ms" (by decide)]
  have h2 : (fixedMetrics source cpu mem st).filter
      (fun s => decide (s.name = "endpoint_latency_ms")) = [] := rfl
  have h3 : (endpointLatencyMetrics source st).filter
      (fun s => decide (s.name = "endpoint_latency_ms")) = endpointLatencyMetrics source st := by
    unfold endpointLatencyMetrics
    split <;> rfl
  have h4 : (pizzaLatencyMetrics source st).filter
      (fun s => decide (s.name = "endpoint_latency_ms")) = [] := by
    unfold pizzaLatencyMetrics
    split <;> rfl
  rw [h2, h3, h4]
  simp

lemma filter_pizza_latency (source : String) (cpu mem : ℚ) (st : AggState) :
    (flushMetrics source cpu mem st).filter
        (fun s => decide (s.name = "pizza_creation_latency_ms"))
      = pizzaLatencyMetrics source st := by
  unfold flushMetrics
  rw [List.filter_append, List.filter_append, List.filter_append,
    filter_other_httpBlock source st "pizza_creation_latency_ms" (by decide)]
  have h2 : (fixedMetrics source cpu mem st).filter
      (fun s => decide (s.name = "pizza_creation_latency_ms")) = [] := rfl
  have h3 : (endpointLatencyMetrics source st).filter
      (fun s => decide (s.name = "pizza_creation_latency_ms")) = [] := by
    unfold endpointLatencyMetrics
    split <;> rfl
  have h4 : (pizzaLatencyMetrics source st).filter
      (fun s => decide (s.name = "pizza_creation_latency_ms")) = pizzaLatencyMetrics source st := by
    unfold pizzaLatencyMetrics
    split <;> rfl
  rw [h2, h3, h4]
  simp

/-- C8 counterexample: with a non-empty endpoint-latency sequence whose
single sample is 0 ms, the flush emits NO `endpoint_latency_ms` gauge at
all — the code's guard is `averageLatency > 0`, not "sequence non-empty",
and the rounded mean of [0] is 0. -/
theorem nonempty_latencies_no_gauge :
    (run initState [Event.onFinish "GET /" 0]).endpointLatencies = [("GET /", 0)] ∧
    (flushMetrics "svc" 0 0 (run initState [Event.onFinish "GET /" 0])).filter
        (fun s => decide (s.name = "endpoint_latency_ms")) = [] := by
  refine ⟨rfl, ?_⟩
  rw [filter_endpoint]
  have hA : getAverageLatencyP
      (run initState [Event.onFinish "GET /" 0]).endpointLatencies = 0 := by
    show getAverageLatencyP [("GET /", 0)] = 0
    simp only [getAverageLatencyP, jsRound]
    norm_num
  unfold endpointLatencyMetrics
  rw [hA]
  simp

/-- C8 (amended): each flush emits exactly one `endpoint_latency_ms`
(resp. `pizza_creation_latency_ms`) gauge sample carrying the latency
sequence's mean rounded to the nearest integer — but only when that rounded
mean is POSITIVE; an empty sequence has average 0 and so yields no sample,
and a non-empty sequence whose rounded mean is 0 also yields none.  The
average of a non-empty sequence is `round(sum / length)`. -/
theorem flush_latency_gauges (source : String) (cpu mem : ℚ) (st : AggState)
    (xs : List (String × ℚ)) (ys : List ℚ) (hxs : ¬ xs = []) (hys : ¬ ys = []) :
    ((flushMetrics source cpu mem st).filter
        (fun s => decide (s.name = "endpoint_latency_ms"))
      = (if 0 < getAverageLatencyP st.endpointLatencies then
          [createMetric source "endpoint_latency_ms" "ms" "gauge" "asInt"
            ((getAverageLatencyP st.endpointLatencies : ℤ) : ℚ) []]
         else [])) ∧
    ((flushMetrics source cpu mem st).filter
        (fun s => decide (s.name = "pizza_creation_latency_ms"))
      = (if 0 < getAverageLatencyN st.pizzaCreationLatencies then
          [createMetric source "pizza_creation_latency_ms" "ms" "gauge" "asInt"
            ((getAverageLatencyN st.pizzaCreationLatencies : ℤ) : ℚ) []]
         else [])) ∧
    getAverageLatencyP [] = 0 ∧
    getAverageLatencyN [] = 0 ∧
    getAverageLatencyP xs = jsRound ((xs.map Prod.snd).sum / (xs.length : ℚ)) ∧
    getAverageLatencyN ys = jsRound (ys.sum / (ys.length : ℚ)) := by
  refine ⟨filter_endpoint source cpu mem st, filter_pizza_latency source cpu mem st,
    rfl, rfl, ?_, ?_⟩
  · unfold getAverageLatencyP
    rw [if_neg (by simpa [List.length_eq_zero] using hxs)]
  · unfold getAverageLatencyN
    rw [if_neg (by simpa [List.length_eq_zero] using hys)]

/-- Witness for `flush_latency_gauges` at the empty aggregator state and
singleton latency sequences. -/
theorem flush_latency_gauges_witness :
    ((flushMetrics "svc" 0 0 initState).filter
        (fun s => decide (s.name = "endpoint_latency_ms"))
      = (if 0 < getAverageLatencyP initState.endpointLatencies then
          [createMetric "svc" "endpoint_latency_ms" "ms" "gauge" "asInt"
            ((getAverageLatencyP initState.endpointLatencies : ℤ) : ℚ) []]
         else [])) ∧
    getAverageLatencyP [] = 0 ∧
    getAverageLatencyP [("GET /", 6)]
      = jsRound (([("GET /", (6 : ℚ))].map Prod.snd).sum / (([("GET /", (6 : ℚ))].length : ℚ))) := by
  have h := flush_latency_gauges "svc" 0 0 initState [("GET /", 6)] [6] (by decide)
    (by decide)
  exact ⟨h.1, h.2.2.1, h.2.2.2.2.1⟩

lemma lookupKey_sanitizeObj_sens (kvs : List (String × Json)) (k : String) (w : Json)
    (hk : sensitiveKey k = true) (hw : lookupKey kvs k = some w) :
    lookupKey (sanitizeObj kvs) k = some (Json.str "*****") := by
  induction kvs with
  | nil => simp [lookupKey] at hw
  | cons kv rest ih =>
      obtain ⟨k1, v1⟩ := kv
      by_cases hs1 : sensitiveKey k1 = true
      · have he : sanitizeObj ((k1, v1) :: rest)
            = (k1, Json.str "*****") :: sanitizeObj rest := by
          simp [sanitizeObj, hs1]
        rw [he]
        by_cases h1 : k1 = k
        · subst h1
          simp [lookupKey]
        · have hw2 : lookupKey rest k = some w := by
            simpa [lookupKey, h1] using hw
          simp [lookupKey, h1, ih hw2]
      · have he : sanitizeObj ((k1, v1) :: rest)
            = (k1, sanitize v1) :: sanitizeObj rest := by
          simp [sanitizeObj, hs1]
        rw [he]
        by_cases h1 : k1 = k
        · subst h1
          exact absurd hk hs1
        · have hw2 : lookupKey rest k = some w := by
            simpa [lookupKey, h1] using hw
          simp [lookupKey, h1, ih hw2]

lemma lookupKey_sanitizeObj_nonsens (kvs : List (String × Json)) (k : String)
    (hk : sensitiveKey k = false) :
    lookupKey (sanitizeObj kvs) k = (lookupKey kvs k).map sanitize := by
  induction kvs with
  | nil => simp [sanitizeObj, lookupKey]
  | cons kv rest ih =>
      obtain ⟨k1, v1⟩ := kv
      by_cases hs1 : sensitiveKey k1 = true
      · have he : sanitizeObj ((k1, v1) :: rest)
            = (k1, Json.str "*****") :: sanitizeObj rest := by
          simp [sanitizeObj, hs1]
        rw [he]
        by_cases h1 : k1 = k
        · subst h1
          rw [hs1] at hk
          exact Bool.noConfusion hk
        · simp [lookupKey, h1, ih]
      · have he : sanitizeObj ((k1, v1) :: rest)
            = (k1, sanitize v1) :: sanitizeObj rest := by
          simp [sanitizeObj, hs1]
        rw [he]
        by_cases h1 : k1 = k
        · subst h1
          simp [lookupKey]
        · simp [lookupKey, h1, ih]

lemma get_sanitizeArr (xs : List Json) (i : Nat) :
    (sanitizeArr xs)[i]? = (xs[i]?).map sanitize := by
  induction xs generalizing i with
  | nil => simp [sanitizeArr]
  | cons x xs ih =>
      cases i with
      | zero => simp [sanitizeArr]
      | succ j => simpa [sanitizeArr] using ih j

lemma stepGet_sanitize (v : Json) (s : PathStep) (hs : stepSensitive s = false) :
    stepGet (sanitize v) s = (stepGet v s).map sanitize := by
  cases v with
  | obj kvs =>
      cases s with
      | field k =>
          have hk : sensitiveKey k = false := hs
          simp [sanitize, stepGet, lookupKey_sanitizeObj_nonsens kvs k hk]
      | index i => simp [sanitize, stepGet]
  | arr xs =>
      cases s with
      | field k => simp [sanitize, stepGet]
      | index i => simp [sanitize, stepGet, get_sanitizeArr]
  | null => cases s <;> simp [sanitize, stepGet]
  | bool b => cases s <;> simp [sanitize, stepGet]
  | num q => cases s <;> simp [sanitize, stepGet]
  | str t => cases s <;> simp [sanitize, stepGet]

lemma getPath_append (v : Json) (p q : List PathStep) :
    getPath v (p ++ q) = (getPath v p).bind (fun w => getPath w q) := by
  induction p generalizing v with
  | nil => simp [getPath]
  | cons s p ih =>
      simp only [List.cons_append, getPath]
      cases h : stepGet v s with
      | none => simp
      | some w => simp [ih w]

lemma getPath_sanitize (p : List PathStep) (hp : ∀ s ∈ p, stepSensitive s = false)
    (v : Json) :
    getPath (sanitize v) p = (getPath v p).map sanitize := by
  induction p generalizing v with
  | nil => simp [getPath]
  | cons s p ih =>
      have hs := hp s (List.mem_cons_self s p)
      have hp2 : ∀ t ∈ p, stepSensitive t = false :=
        fun t ht => hp t (List.mem_cons_of_mem s ht)
      simp only [getPath, stepGet_sanitize v s hs]
      cases h : stepGet v s with
      | none => simp
      | some w => simpa using ih hp2 w

mutual
theorem sanitize_noSens : ∀ v : Json, noSensVal v = true → sanitize v = v
  | Json.null, _ => rfl
  | Json.bool _, _ => rfl
  | Json.num _, _ => rfl
  | Json.str _, _ => rfl
  | Json.arr xs, h => by
      have hx : noSensArr xs = true := by simpa [noSensVal] using h
      rw [show sanitize (Json.arr xs) = Json.arr (sanitizeArr xs) from by simp [sanitize]]
      rw [sanitizeArr_noSens xs hx]
  | Json.obj kvs, h => by
      have hx : noSensObj kvs = true := by simpa [noSensVal] using h
      rw [show sanitize (Json.obj kvs) = Json.obj (sanitizeObj kvs) from by simp [sanitize]]
      rw [sanitizeObj_noSens kvs hx]

theorem sanitizeArr_noSens : ∀ xs : List Json, noSensArr xs = true → sanitizeArr xs = xs
  | [], _ => rfl
  | x :: xs, h => by
      have h1 : noSensVal x = true ∧ noSensArr xs = true := by
        simpa [noSensArr, Bool.and_eq_true] using h
      rw [show sanitizeArr (x :: xs) = sanitize x :: sanitizeArr xs from by simp [sanitizeArr]]
      rw [sanitize_noSens x h1.1, sanitizeArr_noSens xs h1.2]

theorem sanitizeObj_noSens :
    ∀ kvs : List (String × Json), noSensObj kvs = true → sanitizeObj kvs = kvs
  | [], _ => rfl
  | (k, v) :: rest, h => by
      have h1 : (sensitiveKey k = false ∧ noSensVal v = true) ∧ noSensObj rest = true := by
        simpa [noSensObj, Bool.and_eq_true, Bool.not_eq_true'] using h
      rw [show sanitizeObj ((k, v) :: rest)
            = (if sensitiveKey k then (k, Json.str "*****") else (k, sanitize v))
                :: sanitizeObj rest from by simp [sanitizeObj]]
      rw [if_neg (by simp [h1.1.1]), sanitize_noSens v h1.1.2, sanitizeObj_noSens rest h1.2]
end

/-- C2: `sanitize` redacts at every depth and touches nothing else.  Along
any access path of non-sensitive keys, (1) an entry whose final key is
sensitive is replaced by the literal marker "*****" in the sanitized value,
and (2) any entry whose value contains no sensitive key anywhere below it
is returned exactly equal to the original.  (The JS code clones the input
and mutates only the clone, so the call never mutates its argument — the
embedding is the resulting pure function.) -/
theorem sanitize_redacts_and_preserves :
    (∀ (v : Json) (p : List PathStep) (k : String) (w : Json),
        (∀ s ∈ p, stepSensitive s = false) → sensitiveKey k = true →
        getPath v (p ++ [PathStep.field k]) = some w →
        getPath (sanitize v) (p ++ [PathStep.field k]) = some (Json.str "*****")) ∧
    (∀ (v : Json) (p : List PathStep) (w : Json),
        (∀ s ∈ p, stepSensitive s = false) → getPath v p = some w →
        noSensVal w = true → getPath (sanitize v) p = some w) := by
  constructor
  · intro v p k w hp hk hw
    rw [getPath_append] at hw ⊢
    rw [getPath_sanitize p hp v]
    cases hu : getPath v p with
    | none =>
        rw [hu] at hw
        simp at hw
    | some u =>
        rw [hu] at hw
        simp only [Option.some_bind] at hw
        simp only [Option.map_some', Option.some_bind]
        cases u with
        | obj kvs =>
            have hget : lookupKey kvs k = some w := by
              simp only [getPath, stepGet] at hw
              cases hl : lookupKey kvs k with
              | none => rw [hl] at hw; simp at hw
              | some w0 =>
                  rw [hl] at hw
                  simp only [getPath] at hw
                  exact hw
            have := lookupKey_sanitizeObj_sens kvs k w hk hget
            simp [sanitize, getPath, stepGet, this]
        | null => simp [getPath, stepGet] at hw
        | bool b => simp [getPath, stepGet] at hw
        | num q => simp [getPath, stepGet] at hw
        | str t => simp [getPath, stepGet] at hw
        | arr xs => simp [getPath, stepGet] at hw
  · intro v p w hp hw hns
    rw [getPath_sanitize p hp v, hw]
    simp [sanitize_noSens w hns]

/-- A concrete http log payload with a nested sensitive key. -/
def exLogData : Json :=
  Json.obj [("user", Json.obj [("name", Json.str "bob"), ("Password", Json.str "hunter2")]),
            ("status", Json.num 200)]

/-- Witness for `sanitize_redacts_and_preserves` on `exLogData`: the nested
"Password" entry is redacted while its sibling "name" entry is preserved. -/
theorem sanitize_redacts_and_preserves_witness :
    getPath (sanitize exLogData) ([PathStep.field "user"] ++ [PathStep.field "Password"])
      = some (Json.str "*****") ∧
    getPath (sanitize exLogData) [PathStep.field "user", PathStep.field "name"]
      = some (Json.str "bob") :=
  ⟨sanitize_redacts_and_preserves.1 exLogData [PathStep.field "user"] "Password"
      (Json.str "hunter2") (by decide) (by decide) rfl,
   sanitize_redacts_and_preserves.2 exLogData [PathStep.field "user", PathStep.field "name"]
      (Json.str "bob") (by decide) rfl (by simp [noSensVal])⟩

end JwtPizzaObs
